import Mathlib

/-!
Verification development for the slide-image placement engine
(`imgins.py`, `doc_json.py`, `doc_json2.py`).

The Python sources are shallowly embedded: Python dictionaries of sets
become association lists (`List (Int × List Position)`), Python `float`
geometry values become `Rat`, the `'auto'` sentinel becomes an explicit
constructor, and exceptions become `Option`.  Stateful methods become
functions returning the new state.  The external `python-pptx` /
`python-docx` collaborators are out of scope: a presentation is
represented by its slide count, an existing picture shape by its
`(left, top)` corner in inches, and `insert_image_to_slide` is modelled
as always succeeding (its only failure mode is an I/O exception from the
drawing library).
-/

/-- `Position` enum of `imgins.py` / `doc_json.py` (identical in both). -/
inductive Position where
  | topLeft
  | topRight
  | bottomLeft
  | bottomRight
  | center
  | custom
deriving DecidableEq, Repr

/-- Value of the `slide_number` field of a placement: the `'auto'`
sentinel or a concrete integer. -/
inductive SlideVal where
  | auto
  | num (n : Int)
deriving DecidableEq, Repr

/-- `ImagePlacement` dataclass of `imgins.py`.  `position = none` is the
Python `position = None` produced for the `'auto'` slot. -/
structure ImagePlacement where
  image_number : Option Int
  slide_number : SlideVal
  position : Option Position
  left : Option Rat
  top : Option Rat
  width : Option Rat
  height : Option Rat
deriving DecidableEq, Repr

/-- First-match lookup in an association list, as Python dict lookup
(slide number to set of occupied positions). -/
def lookupSlide : List (Int × List Position) → Int → Option (List Position)
  | [], _ => none
  | e :: t, s => if e.1 = s then some e.2 else lookupSlide t s

/-- Replace the value stored at key `s` (first occurrence). -/
def updateSlide : List (Int × List Position) → Int → List Position → List (Int × List Position)
  | [], _, _ => []
  | e :: t, s, l => if e.1 = s then (s, l) :: t else e :: updateSlide t s l

/-- Python `set.add`: extend a duplicate-free list by a new element. -/
def insertPos (p : Position) (l : List Position) : List Position :=
  if p ∈ l then l else p :: l

/-- Membership test used by both occupancy structures:
`slide_number in dict and position in dict[slide_number]`. -/
def occB (tbl : List (Int × List Position)) (s : Int) (p : Position) : Bool :=
  match lookupSlide tbl s with
  | none => false
  | some l => decide (p ∈ l)

/-- Preference-ordered eligible slots, `available_positions` in
`SlidePositionTracker.__init__` and `PositionManager.__init__`. -/
def available_positions : List Position :=
  [Position.bottomLeft, Position.bottomRight, Position.topRight]

/-- `SlidePositionTracker` of `imgins.py`: `occupied_positions` dict. -/
structure SlidePositionTracker where
  occupied : List (Int × List Position)
deriving DecidableEq, Repr

namespace SlidePositionTracker

/-- `SlidePositionTracker.is_position_occupied`. -/
def is_position_occupied (t : SlidePositionTracker) (s : Int) (p : Position) : Bool :=
  match lookupSlide t.occupied s with
  | none => false
  | some l => decide (p ∈ l)

/-- `SlidePositionTracker.occupy_position`.  A fresh key is appended (as
in an insertion-ordered Python dict); adding to a set is modelled by a
duplicate-free cons. -/
def occupy_position (t : SlidePositionTracker) (s : Int) (p : Position) : SlidePositionTracker :=
  match lookupSlide t.occupied s with
  | none => ⟨t.occupied ++ [(s, [p])]⟩
  | some l => ⟨updateSlide t.occupied s (insertPos p l)⟩

/-- `SlidePositionTracker.get_next_available_position`. -/
def get_next_available_position (t : SlidePositionTracker) (s : Int) : Option Position :=
  available_positions.find? (fun p => !(t.is_position_occupied s p))

/-- `SlidePositionTracker.is_slide_full`. -/
def is_slide_full (t : SlidePositionTracker) (s : Int) : Bool :=
  (t.get_next_available_position s).isNone

/-- `SlidePositionTracker.get_occupied_positions` (`.get(slide, set())`). -/
def get_occupied_positions (t : SlidePositionTracker) (s : Int) : List Position :=
  (lookupSlide t.occupied s).getD []

end SlidePositionTracker

/-- `PositionManager` of `doc_json.py` / `doc_json2.py` (identical in
both files).  Unlike the tracker, its query methods mutate the table, so
they return the new state. -/
structure PositionManager where
  occupied : List (Int × List Position)
deriving DecidableEq, Repr

namespace PositionManager

/-- `if slide_number not in self.occupied_positions:
self.occupied_positions[slide_number] = set()` — the defaulting step at
the top of `get_next_available_position` and `occupy_position`. -/
def ensure (m : PositionManager) (s : Int) : PositionManager :=
  match lookupSlide m.occupied s with
  | none => ⟨m.occupied ++ [(s, [])]⟩
  | some _ => m

/-- `PositionManager.get_next_available_position`: inserts an empty set
for an absent slide, then scans the preference list. -/
def get_next_available_position (m : PositionManager) (s : Int) :
    Option Position × PositionManager :=
  let m' := m.ensure s
  (available_positions.find? (fun p => !(decide (p ∈ (lookupSlide m'.occupied s).getD []))), m')

/-- `PositionManager.occupy_position`. -/
def occupy_position (m : PositionManager) (s : Int) (p : Position) : PositionManager :=
  let m' := m.ensure s
  ⟨updateSlide m'.occupied s (insertPos p ((lookupSlide m'.occupied s).getD []))⟩

/-- `PositionManager.is_slide_full` (calls the mutating query). -/
def is_slide_full (m : PositionManager) (s : Int) : Bool × PositionManager :=
  let r := m.get_next_available_position s
  (r.1.isNone, r.2)

/-- `PositionManager.get_available_count`; `len - len` may be negative
in Python, hence `Int`. -/
def get_available_count (m : PositionManager) (s : Int) : Int :=
  match lookupSlide m.occupied s with
  | none => 3
  | some l => 3 - (l.length : Int)

end PositionManager

/-- `PPTImageInserter._determine_position_from_coordinates`.  The
coordinates are in inches (a `pptx` `Length` exposes `.inches`); the
`slide_width`/`slide_height` arguments are unused by the source body and
kept for signature fidelity.  Thresholds are the literal `3.0` and `2.5`
of the source. -/
def determine_position_from_coordinates (_slide_width _slide_height left top : Rat) : Position :=
  if left < 3 ∧ top < 5/2 then Position.topLeft
  else if 3 ≤ left ∧ top < 5/2 then Position.topRight
  else if left < 3 ∧ 5/2 ≤ top then Position.bottomLeft
  else if 3 ≤ left ∧ 5/2 ≤ top then Position.bottomRight
  else Position.center

/-- One slide's worth of `PPTImageInserter.scan_existing_images`:
occupy the classified quadrant of every picture shape, given as its
`(left, top)` corner in inches. -/
def scanSlideShapes (t : SlidePositionTracker) (sn : Int) :
    List (Rat × Rat) → SlidePositionTracker
  | [] => t
  | sh :: rest =>
      scanSlideShapes
        (t.occupy_position sn (determine_position_from_coordinates 10 (15/2) sh.1 sh.2))
        sn rest

/-- `PPTImageInserter.scan_existing_images`: slides are enumerated from
1; every picture shape's quadrant is marked occupied. -/
def scan_existing_images (t : SlidePositionTracker) (slides : List (List (Rat × Rat))) :
    SlidePositionTracker :=
  (slides.enum).foldl (fun acc e => scanSlideShapes acc ((e.1 : Int) + 1) e.2) t

/-- Presentation and tracker state threaded through
`PPTImageInserter.process_mappings`: the deck is only observed and
mutated through its slide count. -/
structure ProcState where
  numSlides : Nat
  tracker : SlidePositionTracker
deriving DecidableEq, Repr

/-- The `for slide_num in range(1, len(prs.slides) + 1)` search of
`auto_assign_position`: first slide (ascending) with a free slot. -/
def scanSlides (numSlides : Nat) (t : SlidePositionTracker) : Option (Int × Position) :=
  (List.range numSlides).findSome? (fun i =>
    (t.get_next_available_position ((i : Int) + 1)).map (fun p => (((i : Int) + 1), p)))

/-- The search-then-create tail of `auto_assign_position`: scan all
slides, else append a blank slide and take the first preference slot. -/
def scanPhase (numSlides : Nat) (t : SlidePositionTracker) : Int × Position × Nat :=
  match scanSlides numSlides t with
  | some (s, p) => (s, p, numSlides)
  | none => (((numSlides : Int) + 1), Position.bottomLeft, numSlides + 1)

/-- `PPTImageInserter.auto_assign_position`.  Returns the assigned
slide, the assigned position and the (possibly grown) slide count. -/
def auto_assign_position (numSlides : Nat) (t : SlidePositionTracker)
    (placement : ImagePlacement) : Int × Position × Nat :=
  match placement.slide_number, placement.position with
  | SlideVal.num s, none =>
      if s ≤ (numSlides : Int) then
        match t.get_next_available_position s with
        | some p => (s, p, numSlides)
        | none => scanPhase numSlides t
      else scanPhase numSlides t
  | _, _ => scanPhase numSlides t

/-- One iteration of the placement loop of
`PPTImageInserter.process_mappings`: image-number validation, slide/slot
resolution (with collision fallback), final slide validation, insertion
(always succeeds in this model) and occupancy marking.  Returns the new
state and the resolved `(slide, position)` (`none` when the request was
skipped). -/
def process_one (numImages : Nat) (st : ProcState) (placement : ImagePlacement) :
    ProcState × Option (Int × Position) :=
  match placement.image_number with
  | none => (st, none)
  | some k =>
    if k < 1 ∨ (numImages : Int) < k then (st, none)
    else
      let r :=
        match placement.slide_number, placement.position with
        | SlideVal.num s0, some pos0 =>
            if st.tracker.is_position_occupied s0 pos0 then
              match st.tracker.get_next_available_position s0 with
              | some alt => (s0, alt, st.numSlides)
              | none => auto_assign_position st.numSlides st.tracker placement
            else (s0, pos0, st.numSlides)
        | _, _ => auto_assign_position st.numSlides st.tracker placement
      if (r.2.2 : Int) < r.1 then ({ numSlides := r.2.2, tracker := st.tracker }, none)
      else ({ numSlides := r.2.2, tracker := st.tracker.occupy_position r.1 r.2.1 },
            some (r.1, r.2.1))

/-- The placement loop of `PPTImageInserter.process_mappings` over the
whole parsed list, collecting each resolved assignment in order. -/
def process_mappings (numImages : Nat) (st : ProcState) :
    List ImagePlacement → ProcState × List (Option (Int × Position))
  | [] => (st, [])
  | p :: ps =>
      let r := process_one numImages st p
      let rest := process_mappings numImages r.1 ps
      (rest.1, r.2 :: rest.2)

example :
    (process_mappings 4 ⟨1, ⟨[]⟩⟩
      (List.replicate 4 ⟨some 1, SlideVal.auto, none, none, none, none, none⟩)).2 =
    [some (1, Position.bottomLeft), some (1, Position.bottomRight),
     some (1, Position.topRight), some (2, Position.bottomLeft)] := by decide

/-- `SlideMapping` of `doc_json.py` (its `positions` field is always
`[]` at this point of the pipeline and is omitted). -/
structure SlideMapping where
  slide_number : Int
  image_numbers : List Int
deriving DecidableEq, Repr

/-- One output record of `JSONGenerator.generate_json_mapping` (the
constant `width`/`height` defaults carry no allocation content and are
omitted). -/
structure GenEntry where
  image_number : Int
  slide_number : Int
  position : Position
deriving DecidableEq, Repr

/-- Pure fullness semantics of a table: all three eligible slots
occupied.  `PositionManager.is_slide_full` computes exactly this (and
additionally inserts an empty entry for an absent key). -/
def fullB (tbl : List (Int × List Position)) (s : Int) : Bool :=
  available_positions.all (fun p => occB tbl s p)

/-- Upper bound on the keys of a table (used only to size the fuel of
the `while` loop below). -/
def tblMaxKey (tbl : List (Int × List Position)) : Int :=
  tbl.foldr (fun e acc => max e.1 acc) 0

/-- The `while self.position_manager.is_slide_full(next_slide):
next_slide += 1` loop of `JSONGenerator._find_or_create_slide`, with
explicit fuel.  The loop always terminates because every slide past the
largest key of the finite table is empty; `find_or_create_slide`
supplies enough fuel to reach that point. -/
def findSlideLoop : Nat → PositionManager → Int → Int × PositionManager
  | 0, m, next => (next, m)
  | fuel + 1, m, next =>
      let r := m.is_slide_full next
      if r.1 then findSlideLoop fuel r.2 (next + 1) else (next, r.2)

/-- `JSONGenerator._find_or_create_slide` (identical in `doc_json.py`
and `doc_json2.py`): starting from `current_slide + 1`, return the first
slide that is not full. -/
def find_or_create_slide (m : PositionManager) (current : Int) : Int × PositionManager :=
  findSlideLoop ((tblMaxKey m.occupied - current).toNat + 1) m (current + 1)

/-- The inner `for i, img_num in enumerate(image_numbers)` loop of
`JSONGenerator.generate_json_mapping`: move forward when the running
slide is full, then take and occupy the next available position. -/
def assignImagesLoop (m : PositionManager) (slideNum : Int) :
    List Int → List GenEntry × PositionManager
  | [] => ([], m)
  | img :: imgs =>
      let rf := m.is_slide_full slideNum
      let sm : Int × PositionManager :=
        if rf.1 then find_or_create_slide rf.2 slideNum else (slideNum, rf.2)
      let rp := sm.2.get_next_available_position sm.1
      match rp.1 with
      | some pos =>
          let m4 := rp.2.occupy_position sm.1 pos
          let rest := assignImagesLoop m4 sm.1 imgs
          (⟨img, sm.1, pos⟩ :: rest.1, rest.2)
      | none =>
          assignImagesLoop rp.2 sm.1 imgs

/-- The allocation pass of `JSONGenerator.generate_json_mapping` over
all mappings (the first "analysis" pass only prints and does not touch
the manager; file output is out of scope). -/
def generate_json_mapping (m : PositionManager) :
    List SlideMapping → List GenEntry × PositionManager
  | [] => ([], m)
  | mp :: mps =>
      let r := assignImagesLoop m mp.slide_number mp.image_numbers
      let rest := generate_json_mapping r.2 mps
      (r.1 ++ rest.1, rest.2)

example :
    (generate_json_mapping ⟨[]⟩ [⟨2, [1, 2, 3]⟩, ⟨2, [4]⟩]).1.map
      (fun e => (e.image_number, e.slide_number)) = [(1, 2), (2, 2), (3, 2), (4, 3)] := by
  decide

/-! ### Text utilities

Character-level models of the Python string operations used by the
mapping parsers (`str.strip`, `str.split`, `int()`, `float()`).  Text is
carried as `List Char`; `int()`/`float()` are modelled on the plain
decimal forms the mapping formats use. -/

/-- Text cell / line content. -/
abbrev Str := List Char

/-- Whitespace recognised by `str.strip` / `str.split()` (the ASCII
whitespace actually occurring in mapping files). -/
def isWS (c : Char) : Bool :=
  c = ' ' || c = '\t' || c = '\n' || c = '\r'

/-- `str.strip()`. -/
def trimChars (l : Str) : Str :=
  ((l.dropWhile isWS).reverse.dropWhile isWS).reverse

/-- `str.split(sep)` for a one-character separator: splits at every
occurrence, keeping empty fields. -/
def splitOnChar (c : Char) : Str → List Str
  | [] => [[]]
  | x :: xs =>
      match splitOnChar c xs with
      | [] => if x = c then [[], []] else [[x]]
      | h :: t => if x = c then [] :: h :: t else (x :: h) :: t

/-- `str.split()` (no argument): runs of non-whitespace, empties
dropped.  `acc` accumulates the current word reversed. -/
def splitWSAux (acc : Str) : Str → List Str
  | [] => if acc = [] then [] else [acc.reverse]
  | c :: cs =>
      if isWS c then
        if acc = [] then splitWSAux [] cs else acc.reverse :: splitWSAux [] cs
      else splitWSAux (c :: acc) cs

/-- `str.split()` with no argument. -/
def splitWS (l : Str) : List Str := splitWSAux [] l

/-- Value of a big-endian digit-character list (`'1' '2' '3'` ↦ 123). -/
def natValue (l : Str) : Nat :=
  l.foldl (fun a c => 10 * a + (c.toNat - 48)) 0

/-- Parse a non-empty all-digit string to a natural number. -/
def parseNatDigits (l : Str) : Option Nat :=
  if l ≠ [] ∧ l.all Char.isDigit then some (natValue l) else none

/-- Signed decimal body of `int(s)` (already stripped). -/
def parseIntChars : Str → Option Int
  | [] => none
  | c :: rest =>
      if c = '-' then (parseNatDigits rest).map (fun n => -(Int.ofNat n))
      else if c = '+' then (parseNatDigits rest).map (fun n => Int.ofNat n)
      else (parseNatDigits (c :: rest)).map (fun n => Int.ofNat n)

/-- `int(s)` on plain decimal literals: strip, optional sign, digits;
anything else raises `ValueError` (`none`). -/
def parseIntStr (s : Str) : Option Int :=
  parseIntChars (trimChars s)

/-- Unsigned core of `float(s)`: digits, optionally a dot and more
digits, at least one digit overall. -/
def parseFloatCore (cs : Str) : Option Rat :=
  let ip := cs.takeWhile Char.isDigit
  let rest := cs.dropWhile Char.isDigit
  match rest with
  | [] => if ip = [] then none else some (natValue ip : Rat)
  | c :: fr =>
      if c = '.' ∧ fr.all Char.isDigit ∧ ¬(ip = [] ∧ fr = []) then
        some ((natValue ip : Rat) + (natValue fr : Rat) / (10 : Rat) ^ fr.length)
      else none

/-- Signed body of `float(s)` (already stripped). -/
def parseFloatChars : Str → Option Rat
  | [] => none
  | c :: rest =>
      if c = '-' then (parseFloatCore rest).map (fun q => -q)
      else if c = '+' then parseFloatCore rest
      else parseFloatCore (c :: rest)

/-- `float(s)` on plain decimal literals (exponent forms never occur in
the mapping files and are outside the model). -/
def parseFloatStr (s : Str) : Option Rat :=
  parseFloatChars (trimChars s)

/-- The string value of each `Position` enum member. -/
def posStr : Position → Str
  | Position.topLeft => "top-left".data
  | Position.topRight => "top-right".data
  | Position.bottomLeft => "bottom-left".data
  | Position.bottomRight => "bottom-right".data
  | Position.center => "center".data
  | Position.custom => "custom".data

/-- `Position(value)`: look the string up among the enum values,
`ValueError` (`none`) otherwise. -/
def positionOfString (s : Str) : Option Position :=
  if s = "top-left".data then some Position.topLeft
  else if s = "top-right".data then some Position.topRight
  else if s = "bottom-left".data then some Position.bottomLeft
  else if s = "bottom-right".data then some Position.bottomRight
  else if s = "center".data then some Position.center
  else if s = "custom".data then some Position.custom
  else none

/-- The `'auto'` sentinel string. -/
def autoStr : Str := "auto".data

/-- Exception-propagating map: one failing record aborts the whole
parse, as an uncaught Python exception does. -/
def mapMOpt (f : α → Option β) : List α → Option (List β)
  | [] => some []
  | a :: as =>
      match f a with
      | none => none
      | some b => (mapMOpt f as).map (fun bs => b :: bs)

/-! ### Mapping ingestion (`_parse_txt_mapping`, `_parse_json_mapping`,
`_parse_csv_mapping`) -/

/-- Geometry field of the line-oriented form:
`float(parts[i]) if len(parts) > i and parts[i].strip() else None`.
Outer `none` = the `float` call raised and the line is skipped. -/
def txtGeoField (parts : List Str) (i : Nat) : Option (Option Rat) :=
  match parts.get? i with
  | none => some none
  | some f => if trimChars f = [] then some none else (parseFloatStr f).map some

/-- Field `i` of the line-oriented form with the `'auto'` default:
`parts[i].strip() if len(parts) > i and parts[i].strip() else 'auto'`. -/
def txtFieldOrAuto (parts : List Str) (i : Nat) : Str :=
  match parts.get? i with
  | none => autoStr
  | some f => if trimChars f = [] then autoStr else trimChars f

/-- Slide field of the line-oriented form: the `'auto'` sentinel or
`int(...)`, whose `ValueError` (`none`) skips the line. -/
def txtSlideField (parts : List Str) : Option SlideVal :=
  let s1 := txtFieldOrAuto parts 1
  if s1 = autoStr then some SlideVal.auto
  else (parseIntStr s1).map SlideVal.num

/-- Position field of the line-oriented form: `'auto'` becomes `none`,
otherwise the `Position(...)` constructor, whose `ValueError` skips the
line. -/
def txtPosField (parts : List Str) : Option (Option Position) :=
  let p2 := txtFieldOrAuto parts 2
  if p2 = autoStr then some none
  else (positionOfString p2).map some

/-- Image-number field of the line-oriented form:
`int(parts[0]) if parts[0].strip() else None` — an empty field yields a
placement with no image number; an unparsable one raises and skips the
line. -/
def txtImageField (p0 : Str) : Option (Option Int) :=
  if trimChars p0 = [] then some none
  else (parseIntStr p0).map some

/-- Field portion of the line loop of
`PPTImageInserter._parse_txt_mapping`, over the already-split parts. -/
def parseTxtFields (parts : List Str) : Option ImagePlacement :=
  match parts with
  | [] => none
  | p0 :: _ =>
    match txtSlideField parts with
    | none => none
    | some slide =>
      match txtPosField parts with
      | none => none
      | some pos =>
        match txtImageField p0 with
        | none => none
        | some img =>
          match txtGeoField parts 3, txtGeoField parts 4,
                txtGeoField parts 5, txtGeoField parts 6 with
          | some l, some t, some w, some h =>
              some ⟨img, slide, pos, l, t, w, h⟩
          | _, _, _, _ => none

/-- Body of the line loop of `PPTImageInserter._parse_txt_mapping`:
`none` when the line is blank, a comment, or any field raises
(`ValueError`/`IndexError` are caught per line and the line skipped). -/
def parseTxtLine (raw : Str) : Option ImagePlacement :=
  let line := trimChars raw
  if line = [] then none
  else if line.head? = some '#' then none
  else parseTxtFields (if ':' ∈ line then splitOnChar ':' line else splitWS line)

/-- `PPTImageInserter._parse_txt_mapping`: parse each line, skipping
blank lines, comments and per-line errors. -/
def parse_txt_mapping (lines : List Str) : List ImagePlacement :=
  lines.filterMap parseTxtLine

/-- One record of the sequential-record (JSON) form.  `none` models an
absent key (`.get` default).  JSON numbers are carried directly; the
`slide_number` value is an integer or the literal string `'auto'`
(merged into `SlideVal`); other JSON values for these keys do not occur
in mapping files and are outside the model. -/
structure JsonItem where
  image_number : Option Int
  slide_number : Option SlideVal
  position : Option Str
  left : Option Rat
  top : Option Rat
  width : Option Rat
  height : Option Rat
deriving DecidableEq, Repr

/-- Body of the item loop of `PPTImageInserter._parse_json_mapping`:
an invalid position string raises `ValueError` (`none`), which aborts
the whole parse. -/
def parseJsonItem (it : JsonItem) : Option ImagePlacement :=
  let position_str := it.position.getD autoStr
  match (if position_str = autoStr then some none
         else (positionOfString position_str).map some) with
  | none => none
  | some pos =>
      some ⟨it.image_number, it.slide_number.getD SlideVal.auto, pos,
            it.left, it.top, it.width, it.height⟩

/-- `PPTImageInserter._parse_json_mapping`: a record error is fatal for
the whole file. -/
def parse_json_mapping (items : List JsonItem) : Option (List ImagePlacement) :=
  mapMOpt parseJsonItem items

/-- One `csv.DictReader` row of the delimited-record form: `none` =
column absent from the header, otherwise the cell text (possibly
empty). -/
structure CsvRow where
  image_number : Option Str
  slide_number : Option Str
  position : Option Str
  left : Option Str
  top : Option Str
  width : Option Str
  height : Option Str
deriving DecidableEq, Repr

/-- Geometry cell of the delimited form:
`float(row[k]) if row.get(k) and row[k].strip() else None`; a raising
`float` is fatal. -/
def csvGeoField (cell : Option Str) : Option (Option Rat) :=
  match cell with
  | none => some none
  | some f => if trimChars f = [] then some none else (parseFloatStr f).map some

/-- Body of the row loop of `PPTImageInserter._parse_csv_mapping`;
any raising conversion (`none`) is fatal for the whole file. -/
def parseCsvRow (row : CsvRow) : Option ImagePlacement :=
  let position_str := row.position.getD autoStr
  match (if position_str = autoStr then some none
         else (positionOfString position_str).map some) with
  | none => none
  | some pos =>
    match (let sc := row.slide_number.getD autoStr
           if sc = autoStr then some SlideVal.auto
           else if sc = [] then some SlideVal.auto
           else (parseIntStr sc).map SlideVal.num) with
    | none => none
    | some slide =>
      match (match row.image_number with
             | none => some none
             | some cell =>
                 if cell = [] then some none else (parseIntStr cell).map some) with
      | none => none
      | some img =>
        match csvGeoField row.left, csvGeoField row.top,
              csvGeoField row.width, csvGeoField row.height with
        | some l, some t, some w, some h =>
            some ⟨img, slide, pos, l, t, w, h⟩
        | _, _, _, _ => none

/-- `PPTImageInserter._parse_csv_mapping`: a record error is fatal for
the whole file. -/
def parse_csv_mapping (rows : List CsvRow) : Option (List ImagePlacement) :=
  mapMOpt parseCsvRow rows

example :
    parse_txt_mapping ["abc:1:bottom-left".data, "2:1:top-right".data] =
    [⟨some 2, SlideVal.num 1, some Position.topRight, none, none, none, none⟩] := by decide

example :
    parse_txt_mapping [":1:bottom-left".data] =
    [⟨none, SlideVal.num 1, some Position.bottomLeft, none, none, none, none⟩] := by decide

/-! ### Equivalent content across the three wire forms

An abstract well-formed record, together with its encoding into each of
the three wire forms.  "Equivalent content" for the round-trip claim
means: the three inputs are the three encodings of one abstract record
list. -/

/-- Character of a single digit. -/
def digitChar (d : Nat) : Char := Char.ofNat (48 + d)

/-- Little-endian base-10 digits with explicit fuel (kernel-reducible;
`natDigitsLE` below supplies sufficient fuel). -/
def natDigitsAux : Nat → Nat → List Nat
  | 0, _ => []
  | _ + 1, 0 => []
  | fuel + 1, n + 1 => ((n + 1) % 10) :: natDigitsAux fuel ((n + 1) / 10)

/-- Little-endian base-10 digits of a natural number. -/
def natDigitsLE (n : Nat) : List Nat := natDigitsAux n n

/-- Decimal rendering of a natural number. -/
def renderNat (n : Nat) : Str :=
  if n = 0 then ['0'] else (natDigitsLE n).reverse.map digitChar

/-- Decimal rendering of an integer. -/
def renderInt (i : Int) : Str :=
  if i < 0 then '-' :: renderNat i.natAbs else renderNat i.toNat

/-- A non-negative finite decimal: integer part and fraction digits.
This is the numeric shape the mapping files actually carry
(e.g. `3.0`). -/
structure Dec where
  ip : Nat
  fp : List (Fin 10)
deriving DecidableEq, Repr

/-- Value of the fraction digits of a decimal. -/
def fracDigitsVal (fp : List (Fin 10)) : Nat :=
  fp.foldl (fun a d => 10 * a + d.val) 0

/-- Rational value of a decimal. -/
def Dec.val (d : Dec) : Rat :=
  (d.ip : Rat) + (fracDigitsVal d.fp : Rat) / (10 : Rat) ^ d.fp.length

/-- Textual rendering of a decimal (`3.0` style; a trailing dot when
there are no fraction digits, which `float` also accepts). -/
def Dec.render (d : Dec) : Str :=
  renderNat d.ip ++ '.' :: d.fp.map (fun x => digitChar x.val)

/-- Rendering of a slide field (`'auto'` or the integer text). -/
def slideStr : SlideVal → Str
  | SlideVal.auto => autoStr
  | SlideVal.num n => renderInt n

/-- Rendering of a slot field (`'auto'` or the enum value). -/
def slotStr : Option Position → Str
  | none => autoStr
  | some p => posStr p

/-- One abstract placement record: the common content of the three wire
forms. -/
structure Record where
  image_number : Nat
  slide : SlideVal
  slot : Option Position
  left : Option Dec
  top : Option Dec
  width : Option Dec
  height : Option Dec
deriving DecidableEq, Repr

/-- The normalized placement a record denotes. -/
def Record.placement (r : Record) : ImagePlacement :=
  ⟨some (r.image_number : Int), r.slide, r.slot,
   r.left.map Dec.val, r.top.map Dec.val, r.width.map Dec.val, r.height.map Dec.val⟩

/-- Encoding into the sequential-record (JSON) form. -/
def Record.toJsonItem (r : Record) : JsonItem :=
  ⟨some (r.image_number : Int), some r.slide, some (slotStr r.slot),
   r.left.map Dec.val, r.top.map Dec.val, r.width.map Dec.val, r.height.map Dec.val⟩

/-- Encoding into the delimited-record (CSV) form. -/
def Record.toCsvRow (r : Record) : CsvRow :=
  ⟨some (renderNat r.image_number), some (slideStr r.slide), some (slotStr r.slot),
   r.left.map Dec.render, r.top.map Dec.render, r.width.map Dec.render,
   r.height.map Dec.render⟩

/-- Join fields with a separator character. -/
def joinWith (c : Char) : List Str → Str
  | [] => []
  | [f] => f
  | f :: fs => f ++ c :: joinWith c fs

/-- Rendering of an optional geometry field in the line-oriented form
(empty field when absent). -/
def txtGeoStr : Option Dec → Str
  | none => []
  | some d => Dec.render d

/-- Encoding into the line-oriented (TXT) form:
`image_number:slide_number:position:left:top:width:height`. -/
def Record.toTxtLine (r : Record) : Str :=
  joinWith ':'
    [renderNat r.image_number, slideStr r.slide, slotStr r.slot,
     txtGeoStr r.left, txtGeoStr r.top, txtGeoStr r.width, txtGeoStr r.height]

example :
    (⟨5, SlideVal.num 1, some Position.bottomLeft, some ⟨3, [0]⟩, none, none, none⟩ :
      Record).toTxtLine = "5:1:bottom-left:3.0:::".data := by decide

example :
    parse_txt_mapping
      [(⟨5, SlideVal.num 1, some Position.bottomLeft, none, none, none,
         none⟩ : Record).toTxtLine] =
    [(⟨5, SlideVal.num 1, some Position.bottomLeft, none, none, none, none⟩ :
       Record).placement] := by decide

example :
    determine_position_from_coordinates 10 (15/2) 4 3 = Position.bottomRight := by
  norm_num [determine_position_from_coordinates]

/-! ### Character and digit lemmas -/

lemma isDigit_toNat {c : Char} (h : c.isDigit = true) : 48 ≤ c.toNat ∧ c.toNat ≤ 57 := by
  simp [Char.isDigit] at h
  exact ⟨h.1, h.2⟩

lemma digitChar_toNat {d : Nat} (h : d < 10) : (digitChar d).toNat = 48 + d := by
  interval_cases d <;> decide

lemma digitChar_isDigit {d : Nat} (h : d < 10) : (digitChar d).isDigit = true := by
  interval_cases d <;> decide

lemma isWS_false_of_isDigit {c : Char} (h : c.isDigit = true) : isWS c = false := by
  have hb := isDigit_toNat h
  simp only [isWS, Bool.or_eq_false_iff, decide_eq_false_iff_not]
  refine ⟨⟨⟨?_, ?_⟩, ?_⟩, ?_⟩ <;>
    · intro he; subst he; exact absurd hb.1 (by decide)

lemma ne_of_isDigit_high {c : Char} (h : c.isDigit = true) {d : Char}
    (hd : 57 < d.toNat) : c ≠ d := by
  intro he; subst he; exact absurd (isDigit_toNat h).2 (by omega)

lemma ne_of_isDigit_low {c : Char} (h : c.isDigit = true) {d : Char}
    (hd : d.toNat < 48) : c ≠ d := by
  intro he; subst he; exact absurd (isDigit_toNat h).1 (by omega)

/-- Value of a big-endian digit list. -/
def digitsVal (l : List Nat) : Nat :=
  l.foldl (fun a d => 10 * a + d) 0

lemma foldl_digits_eq (l : List Nat) :
    ∀ a : Nat, l.foldl (fun a d => 10 * a + d) a =
      a * 10 ^ l.length + Nat.ofDigits 10 l.reverse := by
  induction l with
  | nil => intro a; simp [Nat.ofDigits]
  | cons d t ih =>
      intro a
      simp only [List.foldl_cons, List.length_cons, List.reverse_cons]
      rw [ih (10 * a + d), Nat.ofDigits_append]
      have : Nat.ofDigits 10 [d] = (d : Nat) := by
        simp [Nat.ofDigits]
      rw [this]
      simp only [List.length_reverse]
      ring

lemma natDigitsAux_eq_digits : ∀ fuel n, n ≤ fuel → natDigitsAux fuel n = Nat.digits 10 n := by
  intro fuel
  induction fuel with
  | zero => intro n hn; interval_cases n; simp [natDigitsAux]
  | succ f ih =>
      intro n hn
      match n with
      | 0 => simp [natDigitsAux]
      | m + 1 =>
          rw [show natDigitsAux (f + 1) (m + 1) =
            ((m + 1) % 10) :: natDigitsAux f ((m + 1) / 10) from rfl]
          rw [Nat.digits_def' (by norm_num : 1 < 10) (Nat.succ_pos m)]
          congr 1
          exact ih _ (by
            have := Nat.div_lt_self (Nat.succ_pos m) (by norm_num : 1 < 10)
            omega)

lemma natDigitsLE_eq_digits (n : Nat) : natDigitsLE n = Nat.digits 10 n :=
  natDigitsAux_eq_digits n n le_rfl

lemma natDigitsLE_lt {n d : Nat} (hd : d ∈ natDigitsLE n) : d < 10 := by
  rw [natDigitsLE_eq_digits] at hd
  exact Nat.digits_lt_base (by norm_num) hd

lemma renderNat_all_digit {n : Nat} : ∀ c ∈ renderNat n, c.isDigit = true := by
  intro c hc
  by_cases hn : n = 0
  · subst hn; simp [renderNat] at hc; subst hc; decide
  · simp only [renderNat, if_neg hn, List.mem_map, List.mem_reverse] at hc
    obtain ⟨d, hd, rfl⟩ := hc
    exact digitChar_isDigit (natDigitsLE_lt hd)

lemma renderNat_ne_nil (n : Nat) : renderNat n ≠ [] := by
  by_cases hn : n = 0
  · subst hn; simp [renderNat]
  · simp only [renderNat, if_neg hn]
    intro h
    rw [List.map_eq_nil_iff, List.reverse_eq_nil_iff, natDigitsLE_eq_digits,
      Nat.digits_eq_nil_iff_eq_zero] at h
    exact hn h

lemma natValue_map_digitChar {l : List Nat} (hl : ∀ d ∈ l, d < 10) :
    natValue (l.map digitChar) = digitsVal l := by
  unfold natValue digitsVal
  rw [List.foldl_map]
  suffices h : ∀ a : Nat, List.foldl (fun a d => 10 * a + ((digitChar d).toNat - 48)) a l =
      List.foldl (fun a d => 10 * a + d) a l from h 0
  induction l with
  | nil => intro a; rfl
  | cons d t ih =>
      intro a
      have hd : d < 10 := hl d (by simp)
      simp only [List.foldl_cons, digitChar_toNat hd, Nat.add_sub_cancel_left]
      exact ih (fun x hx => hl x (by simp [hx])) (10 * a + d)

lemma natValue_renderNat (n : Nat) : natValue (renderNat n) = n := by
  by_cases hn : n = 0
  · subst hn; decide
  · simp only [renderNat, if_neg hn]
    rw [natValue_map_digitChar (fun d hd => natDigitsLE_lt (List.mem_reverse.mp hd))]
    unfold digitsVal
    rw [foldl_digits_eq, List.reverse_reverse, List.length_reverse, natDigitsLE_eq_digits,
      Nat.ofDigits_digits]
    simp

lemma parseNatDigits_renderNat (n : Nat) : parseNatDigits (renderNat n) = some n := by
  unfold parseNatDigits
  rw [if_pos ⟨renderNat_ne_nil n, by
    rw [List.all_eq_true]; intro c hc; exact renderNat_all_digit c hc⟩]
  rw [natValue_renderNat]

lemma dropWhile_isWS_eq_self {l : Str} (h : ∀ c ∈ l, isWS c = false) :
    l.dropWhile isWS = l := by
  cases l with
  | nil => rfl
  | cons c t => simp [List.dropWhile, h c (by simp)]

lemma trimChars_eq_self {l : Str} (h : ∀ c ∈ l, isWS c = false) : trimChars l = l := by
  unfold trimChars
  rw [dropWhile_isWS_eq_self h,
    dropWhile_isWS_eq_self (fun c hc => h c (List.mem_reverse.mp hc)),
    List.reverse_reverse]

lemma renderNat_head_digit (n : Nat) :
    ∃ c t, renderNat n = c :: t ∧ c.isDigit = true := by
  obtain ⟨c, t, hct⟩ := List.exists_cons_of_ne_nil (renderNat_ne_nil n)
  exact ⟨c, t, hct, renderNat_all_digit c (by rw [hct]; simp)⟩

lemma parseIntStr_renderNat (n : Nat) : parseIntStr (renderNat n) = some (n : Int) := by
  unfold parseIntStr
  rw [trimChars_eq_self (fun c hc => isWS_false_of_isDigit (renderNat_all_digit c hc))]
  obtain ⟨c, t, hct, hdig⟩ := renderNat_head_digit n
  rw [hct]
  simp only [parseIntChars,
    if_neg (ne_of_isDigit_low hdig (by decide : ('-').toNat < 48)),
    if_neg (ne_of_isDigit_low hdig (by decide : ('+').toNat < 48))]
  rw [← hct, parseNatDigits_renderNat]
  rfl

lemma renderInt_chars {i : Int} :
    ∀ c ∈ renderInt i, c.isDigit = true ∨ c = '-' := by
  intro c hc
  unfold renderInt at hc
  by_cases hi : i < 0
  · rw [if_pos hi] at hc
    rcases List.mem_cons.mp hc with h | h
    · exact Or.inr h
    · exact Or.inl (renderNat_all_digit c h)
  · rw [if_neg hi] at hc
    exact Or.inl (renderNat_all_digit c hc)

lemma renderInt_not_ws {i : Int} : ∀ c ∈ renderInt i, isWS c = false := by
  intro c hc
  rcases renderInt_chars c hc with h | h
  · exact isWS_false_of_isDigit h
  · subst h; decide

lemma parseIntStr_renderInt (i : Int) : parseIntStr (renderInt i) = some i := by
  unfold parseIntStr
  rw [trimChars_eq_self renderInt_not_ws]
  unfold renderInt
  by_cases hi : i < 0
  · rw [if_pos hi]
    simp only [parseIntChars, parseNatDigits_renderNat]
    simp [abs_of_neg hi]
  · rw [if_neg hi]
    have h := parseIntStr_renderNat i.toNat
    unfold parseIntStr at h
    rw [trimChars_eq_self
      (fun c hc => isWS_false_of_isDigit (renderNat_all_digit c hc))] at h
    rw [h]
    congr 1
    omega

lemma renderInt_ne_autoStr (i : Int) : renderInt i ≠ autoStr := by
  intro h
  have ha : 'a' ∈ renderInt i := by rw [h]; decide
  rcases renderInt_chars 'a' ha with hd | hd
  · exact absurd hd (by decide)
  · exact absurd hd (by decide)

lemma renderInt_ne_nil (i : Int) : renderInt i ≠ [] := by
  unfold renderInt
  by_cases hi : i < 0
  · rw [if_pos hi]; simp
  · rw [if_neg hi]; exact renderNat_ne_nil _

/-! ### Decimal rendering round-trip -/

lemma takeWhile_all_append (p : Char → Bool) (l1 : Str) (x : Char) (l2 : Str)
    (h1 : ∀ c ∈ l1, p c = true) (hx : p x = false) :
    (l1 ++ x :: l2).takeWhile p = l1 ∧ (l1 ++ x :: l2).dropWhile p = x :: l2 := by
  induction l1 with
  | nil => simp [List.takeWhile, List.dropWhile, hx]
  | cons c t ih =>
      have hc : p c = true := h1 c (by simp)
      have iht := ih (fun c hc => h1 c (by simp [hc]))
      simp [List.takeWhile, List.dropWhile, hc, iht.1, iht.2]

lemma dec_render_not_ws {d : Dec} : ∀ c ∈ d.render, isWS c = false := by
  intro c hc
  unfold Dec.render at hc
  rcases List.mem_append.mp hc with h | h
  · exact isWS_false_of_isDigit (renderNat_all_digit c h)
  · rcases List.mem_cons.mp h with h | h
    · subst h; decide
    · obtain ⟨x, _, rfl⟩ := List.mem_map.mp h
      exact isWS_false_of_isDigit (digitChar_isDigit x.isLt)

lemma dec_render_ne_nil (d : Dec) : d.render ≠ [] := by
  unfold Dec.render
  intro h
  exact renderNat_ne_nil d.ip (List.append_eq_nil.mp h).1

lemma fracDigitsVal_eq (fp : List (Fin 10)) :
    fracDigitsVal fp = digitsVal (fp.map Fin.val) := by
  unfold fracDigitsVal digitsVal
  rw [List.foldl_map]

lemma parseFloatStr_render (d : Dec) : parseFloatStr d.render = some d.val := by
  unfold parseFloatStr
  rw [trimChars_eq_self dec_render_not_ws]
  obtain ⟨c, t, hct, hdig⟩ := renderNat_head_digit d.ip
  have hrender : d.render = c :: (t ++ '.' :: d.fp.map (fun x => digitChar x.val)) := by
    unfold Dec.render
    rw [hct]
    simp
  rw [hrender]
  simp only [parseFloatChars,
    if_neg (ne_of_isDigit_low hdig (by decide : ('-').toNat < 48)),
    if_neg (ne_of_isDigit_low hdig (by decide : ('+').toNat < 48))]
  rw [← hrender]
  unfold Dec.render parseFloatCore
  have htw := takeWhile_all_append Char.isDigit (renderNat d.ip) '.'
    (d.fp.map (fun x => digitChar x.val))
    (fun c hc => renderNat_all_digit c hc) (by decide)
  rw [htw.1, htw.2]
  simp only
  rw [if_pos]
  · congr 1
    rw [natValue_renderNat]
    have hfr : natValue (d.fp.map (fun x => digitChar x.val)) = fracDigitsVal d.fp := by
      have : d.fp.map (fun x => digitChar x.val) = (d.fp.map Fin.val).map digitChar := by
        simp [List.map_map]
      rw [this, natValue_map_digitChar (by
        intro x hx
        obtain ⟨y, _, rfl⟩ := List.mem_map.mp hx
        exact y.isLt), fracDigitsVal_eq]
    rw [hfr]
    unfold Dec.val
    simp [List.length_map]
  · refine ⟨by trivial, ?_, ?_⟩
    · rw [List.all_eq_true]
      intro c hc
      obtain ⟨x, _, rfl⟩ := List.mem_map.mp hc
      exact digitChar_isDigit x.isLt
    · intro hcon
      exact renderNat_ne_nil d.ip hcon.1

/-! ### Split / join lemmas -/

lemma splitOnChar_ne_nil (c : Char) (l : Str) : splitOnChar c l ≠ [] := by
  cases l with
  | nil => simp [splitOnChar]
  | cons x xs =>
      unfold splitOnChar
      match h : splitOnChar c xs with
      | [] => by_cases hx : x = c <;> simp [hx]
      | h' :: t => by_cases hx : x = c <;> simp [hx]

lemma splitOnChar_no_sep {c : Char} {l : Str} (h : c ∉ l) : splitOnChar c l = [l] := by
  induction l with
  | nil => rfl
  | cons x xs ih =>
      have hx : x ≠ c := fun he => h (by simp [he])
      have hxs : c ∉ xs := fun hm => h (by simp [hm])
      unfold splitOnChar
      rw [ih hxs]
      simp [hx]

lemma splitOnChar_append {c : Char} {a b : Str} (h : c ∉ a) :
    splitOnChar c (a ++ c :: b) = a :: splitOnChar c b := by
  induction a with
  | nil =>
      show splitOnChar c (c :: b) = [] :: splitOnChar c b
      conv_lhs => unfold splitOnChar
      match hb : splitOnChar c b with
      | [] => exact absurd hb (splitOnChar_ne_nil c b)
      | h' :: t => simp
  | cons x xs ih =>
      have hx : x ≠ c := fun he => h (by simp [he])
      have hxs : c ∉ xs := fun hm => h (by simp [hm])
      have ihx := ih hxs
      show splitOnChar c (x :: (xs ++ c :: b)) = (x :: xs) :: splitOnChar c b
      conv_lhs => unfold splitOnChar
      rw [ihx]
      simp [hx]

lemma splitOnChar_joinWith {c : Char} :
    ∀ fs : List Str, fs ≠ [] → (∀ f ∈ fs, c ∉ f) →
      splitOnChar c (joinWith c fs) = fs := by
  intro fs
  induction fs with
  | nil => intro h; exact absurd rfl h
  | cons f t ih =>
      intro _ hall
      match t with
      | [] => exact splitOnChar_no_sep (hall f (by simp))
      | g :: t' =>
          show splitOnChar c (f ++ c :: joinWith c (g :: t')) = f :: g :: t'
          rw [splitOnChar_append (hall f (by simp))]
          rw [ih (by simp) (fun x hx => hall x (by simp [hx]))]

lemma mem_joinWith {c : Char} {fs : List Str} {x : Char} (hx : x ∈ joinWith c fs) :
    x = c ∨ ∃ f ∈ fs, x ∈ f := by
  induction fs with
  | nil => simp [joinWith] at hx
  | cons f t ih =>
      match t with
      | [] =>
          exact Or.inr ⟨f, by simp, hx⟩
      | g :: t' =>
          rw [show joinWith c (f :: g :: t') = f ++ c :: joinWith c (g :: t') from rfl] at hx
          rcases List.mem_append.mp hx with h | h
          · exact Or.inr ⟨f, by simp, h⟩
          · rcases List.mem_cons.mp h with h | h
            · exact Or.inl h
            · rcases ih h with h' | ⟨f', hf', hxf'⟩
              · exact Or.inl h'
              · exact Or.inr ⟨f', by simp [hf'], hxf'⟩

/-! ### Slot-string lemmas -/

lemma positionOfString_posStr (p : Position) : positionOfString (posStr p) = some p := by
  cases p <;> decide

lemma posStr_ne_autoStr (p : Position) : posStr p ≠ autoStr := by
  cases p <;> decide

lemma posStr_not_ws (p : Position) : ∀ c ∈ posStr p, isWS c = false := by
  cases p <;> decide

lemma posStr_no_colon (p : Position) : ':' ∉ posStr p := by
  cases p <;> decide

lemma posStr_ne_nil (p : Position) : posStr p ≠ [] := by
  cases p <;> decide

lemma autoStr_not_ws : ∀ c ∈ autoStr, isWS c = false := by decide

lemma autoStr_no_colon : ':' ∉ autoStr := by decide

lemma slotStr_not_ws (o : Option Position) : ∀ c ∈ slotStr o, isWS c = false := by
  cases o with
  | none => exact autoStr_not_ws
  | some p => exact posStr_not_ws p

lemma slotStr_no_colon (o : Option Position) : ':' ∉ slotStr o := by
  cases o with
  | none => exact autoStr_no_colon
  | some p => exact posStr_no_colon p

lemma slotStr_ne_nil (o : Option Position) : slotStr o ≠ [] := by
  cases o with
  | none => decide
  | some p => exact posStr_ne_nil p

lemma slideStr_not_ws (v : SlideVal) : ∀ c ∈ slideStr v, isWS c = false := by
  cases v with
  | auto => exact autoStr_not_ws
  | num n => exact renderInt_not_ws

lemma renderInt_no_colon (i : Int) : ':' ∉ renderInt i := by
  intro h
  rcases renderInt_chars ':' h with hd | hd
  · exact absurd hd (by decide)
  · exact absurd hd (by decide)

lemma slideStr_no_colon (v : SlideVal) : ':' ∉ slideStr v := by
  cases v with
  | auto => exact autoStr_no_colon
  | num n => exact renderInt_no_colon n

lemma slideStr_ne_nil (v : SlideVal) : slideStr v ≠ [] := by
  cases v with
  | auto => decide
  | num n => exact renderInt_ne_nil n

lemma renderNat_no_colon (n : Nat) : ':' ∉ renderNat n := by
  intro h
  exact absurd (renderNat_all_digit ':' h) (by decide)

lemma renderNat_not_ws (n : Nat) : ∀ c ∈ renderNat n, isWS c = false :=
  fun c hc => isWS_false_of_isDigit (renderNat_all_digit c hc)

lemma dec_render_no_colon (d : Dec) : ':' ∉ d.render := by
  intro hc
  unfold Dec.render at hc
  rcases List.mem_append.mp hc with h | h
  · exact renderNat_no_colon d.ip h
  · rcases List.mem_cons.mp h with h | h
    · exact absurd h (by decide)
    · obtain ⟨x, _, hx⟩ := List.mem_map.mp h
      exact absurd (hx ▸ digitChar_isDigit x.isLt) (by decide)

lemma txtGeoStr_not_ws (o : Option Dec) : ∀ c ∈ txtGeoStr o, isWS c = false := by
  cases o with
  | none => simp [txtGeoStr]
  | some d => exact dec_render_not_ws

lemma txtGeoStr_no_colon (o : Option Dec) : ':' ∉ txtGeoStr o := by
  cases o with
  | none => simp [txtGeoStr]
  | some d => exact dec_render_no_colon d

/-! ### Per-record round-trips for the three wire forms -/

lemma parseJsonItem_toJsonItem (r : Record) :
    parseJsonItem r.toJsonItem = some r.placement := by
  cases hs : r.slot with
  | none =>
      simp [parseJsonItem, Record.toJsonItem, Record.placement, slotStr, hs]
  | some p =>
      simp [parseJsonItem, Record.toJsonItem, Record.placement, slotStr, hs,
        posStr_ne_autoStr, positionOfString_posStr]

lemma csvGeoField_map_render (o : Option Dec) :
    csvGeoField (o.map Dec.render) = some (o.map Dec.val) := by
  cases o with
  | none => rfl
  | some d =>
      show (if trimChars (Dec.render d) = [] then some none
        else (parseFloatStr (Dec.render d)).map some) = some (some d.val)
      rw [trimChars_eq_self dec_render_not_ws, if_neg (dec_render_ne_nil d),
        parseFloatStr_render]
      rfl

lemma parseCsvRow_toCsvRow (r : Record) :
    parseCsvRow r.toCsvRow = some r.placement := by
  unfold parseCsvRow Record.toCsvRow
  simp only [Option.getD_some]
  have hpos : (if slotStr r.slot = autoStr then some none
      else (positionOfString (slotStr r.slot)).map some) = some r.slot := by
    cases hs : r.slot with
    | none => simp [slotStr]
    | some p => simp [slotStr, posStr_ne_autoStr, positionOfString_posStr]
  rw [hpos]
  have hslide : (if slideStr r.slide = autoStr then some SlideVal.auto
      else if slideStr r.slide = [] then some SlideVal.auto
      else (parseIntStr (slideStr r.slide)).map SlideVal.num) = some r.slide := by
    cases hv : r.slide with
    | auto => simp [slideStr]
    | num n =>
        simp only [slideStr]
        rw [if_neg (renderInt_ne_autoStr n), if_neg (renderInt_ne_nil n),
          parseIntStr_renderInt]
        rfl
  rw [hslide]
  have himg : (if renderNat r.image_number = [] then some none
      else (parseIntStr (renderNat r.image_number)).map some) =
      some (some (r.image_number : Int)) := by
    rw [if_neg (renderNat_ne_nil _), parseIntStr_renderNat]
    rfl
  rw [himg]
  rw [csvGeoField_map_render, csvGeoField_map_render, csvGeoField_map_render,
    csvGeoField_map_render]
  rfl

lemma txtFieldOrAuto_eval {parts : List Str} {i : Nat} {f : Str}
    (hget : parts.get? i = some f) (hws : ∀ c ∈ f, isWS c = false) (hne : f ≠ []) :
    txtFieldOrAuto parts i = f := by
  unfold txtFieldOrAuto
  rw [hget]
  show (if trimChars f = [] then autoStr else trimChars f) = f
  rw [trimChars_eq_self hws, if_neg hne]

lemma txtGeoField_eval {parts : List Str} {i : Nat} {o : Option Dec}
    (hget : parts.get? i = some (txtGeoStr o)) :
    txtGeoField parts i = some (o.map Dec.val) := by
  unfold txtGeoField
  rw [hget]
  cases o with
  | none => rfl
  | some d =>
      show (if trimChars (Dec.render d) = [] then some none
        else (parseFloatStr (Dec.render d)).map some) = some (some d.val)
      rw [trimChars_eq_self dec_render_not_ws, if_neg (dec_render_ne_nil d),
        parseFloatStr_render]
      rfl

lemma slideStr_parse (v : SlideVal) :
    (if slideStr v = autoStr then some SlideVal.auto
     else (parseIntStr (slideStr v)).map SlideVal.num) = some v := by
  cases v with
  | auto => simp [slideStr]
  | num n =>
      simp only [slideStr]
      rw [if_neg (renderInt_ne_autoStr n), parseIntStr_renderInt]
      rfl

lemma slotStr_parse (o : Option Position) :
    (if slotStr o = autoStr then some none
     else (positionOfString (slotStr o)).map some) = some o := by
  cases o with
  | none => simp [slotStr]
  | some p => simp [slotStr, posStr_ne_autoStr, positionOfString_posStr]

lemma toTxtLine_not_ws (r : Record) : ∀ c ∈ r.toTxtLine, isWS c = false := by
  intro x hx
  rcases mem_joinWith hx with rfl | ⟨f, hf, hxf⟩
  · decide
  · simp only [List.mem_cons, List.not_mem_nil, or_false] at hf
    rcases hf with rfl | rfl | rfl | rfl | rfl | rfl | rfl
    · exact renderNat_not_ws _ x hxf
    · exact slideStr_not_ws _ x hxf
    · exact slotStr_not_ws _ x hxf
    · exact txtGeoStr_not_ws _ x hxf
    · exact txtGeoStr_not_ws _ x hxf
    · exact txtGeoStr_not_ws _ x hxf
    · exact txtGeoStr_not_ws _ x hxf

lemma parseTxtLine_toTxtLine (r : Record) :
    parseTxtLine r.toTxtLine = some r.placement := by
  obtain ⟨c0, t0, hct, hdig⟩ := renderNat_head_digit r.image_number
  have hdecomp : r.toTxtLine = renderNat r.image_number ++ ':' ::
      joinWith ':' [slideStr r.slide, slotStr r.slot, txtGeoStr r.left,
        txtGeoStr r.top, txtGeoStr r.width, txtGeoStr r.height] := rfl
  have htrim : trimChars r.toTxtLine = r.toTxtLine :=
    trimChars_eq_self (toTxtLine_not_ws r)
  have hne : r.toTxtLine ≠ [] := by
    rw [hdecomp, hct]; simp
  have hhead : r.toTxtLine.head? ≠ some '#' := by
    rw [hdecomp, hct]
    simp only [List.cons_append, List.head?_cons, ne_eq, Option.some.injEq]
    exact ne_of_isDigit_low hdig (by decide)
  have hcolon : ':' ∈ r.toTxtLine := by
    rw [hdecomp]
    exact List.mem_append.mpr (Or.inr (by simp))
  have hsplit : splitOnChar ':' r.toTxtLine =
      [renderNat r.image_number, slideStr r.slide, slotStr r.slot,
       txtGeoStr r.left, txtGeoStr r.top, txtGeoStr r.width, txtGeoStr r.height] := by
    apply splitOnChar_joinWith _ (by simp)
    intro f hf
    simp only [List.mem_cons, List.not_mem_nil, or_false] at hf
    rcases hf with rfl | rfl | rfl | rfl | rfl | rfl | rfl
    · exact renderNat_no_colon _
    · exact slideStr_no_colon _
    · exact slotStr_no_colon _
    · exact txtGeoStr_no_colon _
    · exact txtGeoStr_no_colon _
    · exact txtGeoStr_no_colon _
    · exact txtGeoStr_no_colon _
  have ha1 : txtFieldOrAuto
      [renderNat r.image_number, slideStr r.slide, slotStr r.slot,
       txtGeoStr r.left, txtGeoStr r.top, txtGeoStr r.width, txtGeoStr r.height] 1 =
      slideStr r.slide :=
    txtFieldOrAuto_eval rfl (slideStr_not_ws _) (slideStr_ne_nil _)
  have ha2 : txtFieldOrAuto
      [renderNat r.image_number, slideStr r.slide, slotStr r.slot,
       txtGeoStr r.left, txtGeoStr r.top, txtGeoStr r.width, txtGeoStr r.height] 2 =
      slotStr r.slot :=
    txtFieldOrAuto_eval rfl (slotStr_not_ws _) (slotStr_ne_nil _)
  have hS : txtSlideField
      [renderNat r.image_number, slideStr r.slide, slotStr r.slot,
       txtGeoStr r.left, txtGeoStr r.top, txtGeoStr r.width, txtGeoStr r.height] =
      some r.slide := by
    unfold txtSlideField
    rw [ha1]
    exact slideStr_parse r.slide
  have hP : txtPosField
      [renderNat r.image_number, slideStr r.slide, slotStr r.slot,
       txtGeoStr r.left, txtGeoStr r.top, txtGeoStr r.width, txtGeoStr r.height] =
      some r.slot := by
    unfold txtPosField
    rw [ha2]
    exact slotStr_parse r.slot
  have hI : txtImageField (renderNat r.image_number) =
      some (some (Int.ofNat r.image_number)) := by
    unfold txtImageField
    rw [trimChars_eq_self (renderNat_not_ws _), if_neg (renderNat_ne_nil _),
      parseIntStr_renderNat]
    rfl
  have hg3 : txtGeoField
      [renderNat r.image_number, slideStr r.slide, slotStr r.slot,
       txtGeoStr r.left, txtGeoStr r.top, txtGeoStr r.width, txtGeoStr r.height] 3 =
      some (r.left.map Dec.val) := txtGeoField_eval rfl
  have hg4 : txtGeoField
      [renderNat r.image_number, slideStr r.slide, slotStr r.slot,
       txtGeoStr r.left, txtGeoStr r.top, txtGeoStr r.width, txtGeoStr r.height] 4 =
      some (r.top.map Dec.val) := txtGeoField_eval rfl
  have hg5 : txtGeoField
      [renderNat r.image_number, slideStr r.slide, slotStr r.slot,
       txtGeoStr r.left, txtGeoStr r.top, txtGeoStr r.width, txtGeoStr r.height] 5 =
      some (r.width.map Dec.val) := txtGeoField_eval rfl
  have hg6 : txtGeoField
      [renderNat r.image_number, slideStr r.slide, slotStr r.slot,
       txtGeoStr r.left, txtGeoStr r.top, txtGeoStr r.width, txtGeoStr r.height] 6 =
      some (r.height.map Dec.val) := txtGeoField_eval rfl
  unfold parseTxtLine
  simp only [htrim, if_neg hne, if_neg hhead, if_pos hcolon, hsplit, parseTxtFields,
    hS, hP, hI, hg3, hg4, hg5, hg6]
  rfl

lemma mapMOpt_map {α β γ : Type} {f : α → Option γ} {g : β → α} {h : β → γ}
    (H : ∀ b, f (g b) = some (h b)) :
    ∀ l : List β, mapMOpt f (l.map g) = some (l.map h) := by
  intro l
  induction l with
  | nil => rfl
  | cons b t ih =>
      simp only [List.map_cons, mapMOpt, H b, ih]
      rfl

lemma filterMap_map {α β γ : Type} {f : α → Option γ} {g : β → α} {h : β → γ}
    (H : ∀ b, f (g b) = some (h b)) :
    ∀ l : List β, (l.map g).filterMap f = l.map h := by
  intro l
  induction l with
  | nil => rfl
  | cons b t ih =>
      simp only [List.map_cons, List.filterMap_cons, H b, ih]

/-! ### Occupancy-table lemmas -/

lemma mem_insertPos {q p : Position} {l : List Position} :
    q ∈ insertPos p l ↔ q = p ∨ q ∈ l := by
  unfold insertPos
  by_cases hp : p ∈ l
  · rw [if_pos hp]
    constructor
    · exact Or.inr
    · rintro (rfl | h)
      · exact hp
      · exact h
  · rw [if_neg hp]
    simp

lemma lookupSlide_cons (x : Int × List Position) (xs : List (Int × List Position))
    (k : Int) :
    lookupSlide (x :: xs) k = if x.1 = k then some x.2 else lookupSlide xs k := rfl

lemma lookupSlide_append (t1 t2 : List (Int × List Position)) (s : Int) :
    lookupSlide (t1 ++ t2) s =
      match lookupSlide t1 s with
      | some l => some l
      | none => lookupSlide t2 s := by
  induction t1 with
  | nil => rfl
  | cons e t ih =>
      show lookupSlide (e :: (t ++ t2)) s = _
      rw [lookupSlide_cons e (t ++ t2) s, lookupSlide_cons e t s]
      by_cases he : e.1 = s
      · simp [he]
      · simp only [if_neg he]
        exact ih

lemma updateSlide_cons (e : Int × List Position) (t : List (Int × List Position))
    (s : Int) (l : List Position) :
    updateSlide (e :: t) s l =
      if e.1 = s then (s, l) :: t else e :: updateSlide t s l := rfl

lemma lookupSlide_updateSlide {tbl : List (Int × List Position)} {s : Int}
    {l0 : List Position} (h : lookupSlide tbl s = some l0) (l : List Position) (s' : Int) :
    lookupSlide (updateSlide tbl s l) s' =
      if s' = s then some l else lookupSlide tbl s' := by
  induction tbl with
  | nil => simp [lookupSlide] at h
  | cons e t ih =>
      rw [lookupSlide_cons e t s] at h
      by_cases he : e.1 = s
      · rw [updateSlide_cons, if_pos he]
        rw [lookupSlide_cons (s, l) t s', lookupSlide_cons e t s']
        by_cases hs' : s' = s
        · simp [hs']
        · rw [if_neg (fun hh : (s, l).1 = s' => hs' hh.symm), if_neg hs',
            if_neg (fun hh : e.1 = s' => hs' (by rw [← hh, he]))]
      · rw [if_neg he] at h
        rw [updateSlide_cons, if_neg he]
        rw [lookupSlide_cons e (updateSlide t s l) s', lookupSlide_cons e t s']
        by_cases he' : e.1 = s'
        · rw [if_pos he', if_pos he',
            if_neg (fun hh : s' = s => he (by rw [he', hh]))]
        · rw [if_neg he', if_neg he', ih h]

lemma occupy_lookup (t : SlidePositionTracker) (s : Int) (p : Position) (s' : Int) :
    lookupSlide (t.occupy_position s p).occupied s' =
      if s' = s then some (insertPos p ((lookupSlide t.occupied s).getD []))
      else lookupSlide t.occupied s' := by
  unfold SlidePositionTracker.occupy_position
  cases hl : lookupSlide t.occupied s with
  | none =>
      simp only
      rw [lookupSlide_append]
      by_cases hs' : s' = s
      · subst hs'
        rw [hl]
        simp [lookupSlide, hl, insertPos]
      · rw [if_neg hs']
        cases hl' : lookupSlide t.occupied s' with
        | some l => rfl
        | none =>
            simp only
            rw [lookupSlide_cons]
            rw [if_neg (fun hh : s = s' => hs' hh.symm)]
            rfl
  | some l =>
      simp only
      rw [lookupSlide_updateSlide hl (insertPos p l) s']
      rfl

lemma is_occ_occupy (t : SlidePositionTracker) (s : Int) (p : Position) (s' : Int)
    (q : Position) :
    (t.occupy_position s p).is_position_occupied s' q =
      ((decide (s' = s) && decide (q = p)) || t.is_position_occupied s' q) := by
  unfold SlidePositionTracker.is_position_occupied
  rw [occupy_lookup]
  by_cases hs' : s' = s
  · subst hs'
    rw [if_pos rfl]
    simp only [decide_eq_true_eq, decide_true_eq_true, Bool.true_and]
    cases hl : lookupSlide t.occupied s' with
    | none =>
        simp only [Option.getD_none]
        by_cases hq : q = p
        · simp [hq, mem_insertPos]
        · simp [hq, mem_insertPos]
    | some l =>
        simp only [Option.getD_some]
        by_cases hq : q = p
        · simp [hq, mem_insertPos]
        · simp [hq, mem_insertPos]
  · rw [if_neg hs']
    simp [hs']

lemma next_available_eval (t : SlidePositionTracker) (s : Int) :
    t.get_next_available_position s =
      if t.is_position_occupied s Position.bottomLeft = false then some Position.bottomLeft
      else if t.is_position_occupied s Position.bottomRight = false then
        some Position.bottomRight
      else if t.is_position_occupied s Position.topRight = false then some Position.topRight
      else none := by
  unfold SlidePositionTracker.get_next_available_position available_positions
  cases hb1 : t.is_position_occupied s Position.bottomLeft <;>
    cases hb2 : t.is_position_occupied s Position.bottomRight <;>
      cases hb3 : t.is_position_occupied s Position.topRight <;>
        simp [List.find?, hb1, hb2, hb3]

/-! ### PositionManager lemmas -/

lemma lookup_ensure (m : PositionManager) (s s' : Int) :
    lookupSlide (m.ensure s).occupied s' =
      if s' = s then some ((lookupSlide m.occupied s).getD [])
      else lookupSlide m.occupied s' := by
  unfold PositionManager.ensure
  cases hl : lookupSlide m.occupied s with
  | none =>
      simp only
      rw [lookupSlide_append]
      by_cases hs' : s' = s
      · subst hs'
        rw [hl]
        simp [lookupSlide, hl]
      · rw [if_neg hs']
        cases hl' : lookupSlide m.occupied s' with
        | some l => rfl
        | none =>
            simp only
            rw [lookupSlide_cons, if_neg (fun hh : s = s' => hs' hh.symm)]
            rfl
  | some l =>
      simp only
      by_cases hs' : s' = s
      · subst hs'
        rw [hl, if_pos rfl]
        rfl
      · rw [if_neg hs']

lemma occB_ensure (m : PositionManager) (s s' : Int) (p : Position) :
    occB (m.ensure s).occupied s' p = occB m.occupied s' p := by
  unfold occB
  rw [lookup_ensure]
  by_cases hs' : s' = s
  · subst hs'
    rw [if_pos rfl]
    cases hl : lookupSlide m.occupied s' with
    | none => simp
    | some l => simp
  · rw [if_neg hs']

lemma occB_getD (tbl : List (Int × List Position)) (s : Int) (p : Position) :
    decide (p ∈ (lookupSlide tbl s).getD []) = occB tbl s p := by
  unfold occB
  cases hl : lookupSlide tbl s with
  | none => simp
  | some l => simp

/-- The manager's query returns the same slot as the pure tracker
computation over the same table. -/
lemma manager_next_fst (m : PositionManager) (s : Int) :
    (m.get_next_available_position s).1 =
      (SlidePositionTracker.mk m.occupied).get_next_available_position s := by
  unfold PositionManager.get_next_available_position
    SlidePositionTracker.get_next_available_position
  simp only
  congr 1
  funext p
  rw [show (SlidePositionTracker.mk m.occupied).is_position_occupied s p =
      occB m.occupied s p from rfl]
  rw [occB_getD, show occB (m.ensure s).occupied s p = occB m.occupied s p from
    occB_ensure m s s p]

lemma manager_next_snd (m : PositionManager) (s : Int) :
    (m.get_next_available_position s).2 = m.ensure s := rfl

/-! ### Generator-loop lemmas -/

lemma find_isNone_eq_all (f : Position → Bool) (l : List Position) :
    (l.find? (fun p => !(f p))).isNone = l.all f := by
  induction l with
  | nil => rfl
  | cons a t ih =>
      cases ha : f a <;> simp [List.find?, List.all_cons, ha, ih]

lemma manager_is_slide_full (m : PositionManager) (s : Int) :
    m.is_slide_full s = (fullB m.occupied s, m.ensure s) := by
  unfold PositionManager.is_slide_full PositionManager.get_next_available_position fullB
  simp only
  have hfun : (fun p => !(decide (p ∈ (lookupSlide (m.ensure s).occupied s).getD []))) =
      (fun p => !(occB m.occupied s p)) := by
    funext p
    rw [occB_getD, occB_ensure]
  rw [hfun, find_isNone_eq_all (fun p => occB m.occupied s p) available_positions]

lemma fullB_ensure (m : PositionManager) (s s' : Int) :
    fullB (m.ensure s).occupied s' = fullB m.occupied s' := by
  unfold fullB
  congr 1
  funext p
  exact occB_ensure m s s' p

lemma tblMaxKey_mem {tbl : List (Int × List Position)} {e : Int × List Position}
    (he : e ∈ tbl) : e.1 ≤ tblMaxKey tbl := by
  induction tbl with
  | nil => simp at he
  | cons x t ih =>
      unfold tblMaxKey
      rcases List.mem_cons.mp he with rfl | hm
      · simp [List.foldr]
      · simp only [List.foldr_cons]
        exact le_trans (ih hm) (le_max_right _ _)

lemma lookupSlide_none_of_gt {tbl : List (Int × List Position)} {s : Int}
    (h : tblMaxKey tbl < s) : lookupSlide tbl s = none := by
  induction tbl with
  | nil => rfl
  | cons e t ih =>
      rw [lookupSlide_cons]
      rw [if_neg (fun hh : e.1 = s => by
        have := tblMaxKey_mem (List.mem_cons_self e t)
        omega)]
      exact ih (lt_of_le_of_lt (by
        have : tblMaxKey t ≤ tblMaxKey (e :: t) := by
          unfold tblMaxKey
          simp only [List.foldr_cons]
          exact le_max_right _ _
        exact this) h)

lemma fullB_false_of_gt {tbl : List (Int × List Position)} {s : Int}
    (h : tblMaxKey tbl < s) : fullB tbl s = false := by
  unfold fullB occB
  rw [lookupSlide_none_of_gt h]
  simp [available_positions]

lemma findSlideLoop_spec :
    ∀ (fuel : Nat) (m : PositionManager) (next : Int),
      (∃ k : Nat, k < fuel ∧ fullB m.occupied (next + k) = false) →
      next ≤ (findSlideLoop fuel m next).1 ∧
      fullB m.occupied (findSlideLoop fuel m next).1 = false ∧
      ∀ t : Int, next ≤ t → t < (findSlideLoop fuel m next).1 →
        fullB m.occupied t = true := by
  intro fuel
  induction fuel with
  | zero =>
      intro m next ⟨k, hk, _⟩
      omega
  | succ f ih =>
      intro m next ⟨k, hk, hfull⟩
      unfold findSlideLoop
      rw [manager_is_slide_full]
      simp only
      cases hfb : fullB m.occupied next with
      | false =>
          rw [if_neg (by simp [hfb])]
          refine ⟨le_rfl, hfb, ?_⟩
          intro t ht1 ht2
          omega
      | true =>
          rw [if_pos (by simp [hfb])]
          have hk0 : k ≠ 0 := by
            intro h0
            subst h0
            simp at hfull
            rw [hfull] at hfb
            exact Bool.false_ne_true hfb
          have hrec := ih (m.ensure next) (next + 1) ⟨k - 1, by omega, by
            rw [fullB_ensure]
            have : next + 1 + (k - 1 : Nat) = next + k := by omega
            rw [this]
            exact hfull⟩
          have heq : ∀ t : Int, fullB (m.ensure next).occupied t = fullB m.occupied t :=
            fun t => fullB_ensure m next t
          rcases hrec with ⟨h1, h2, h3⟩
          rw [heq] at h2
          refine ⟨by omega, h2, ?_⟩
          intro t ht1 ht2
          by_cases hteq : t = next
          · subst hteq; exact hfb
          · have := h3 t (by omega) ht2
            rw [heq] at this
            exact this

/-- `_find_or_create_slide` returns the least non-full slide strictly
after `current`. -/
lemma find_or_create_slide_spec (m : PositionManager) (current : Int) :
    current < (find_or_create_slide m current).1 ∧
    fullB m.occupied (find_or_create_slide m current).1 = false ∧
    ∀ t : Int, current < t → t < (find_or_create_slide m current).1 →
      fullB m.occupied t = true := by
  unfold find_or_create_slide
  have hex : ∃ k : Nat, k < (tblMaxKey m.occupied - current).toNat + 1 ∧
      fullB m.occupied (current + 1 + k) = false := by
    refine ⟨(tblMaxKey m.occupied - current).toNat, lt_add_one _, ?_⟩
    apply fullB_false_of_gt
    have := Int.self_le_toNat (tblMaxKey m.occupied - current)
    omega
  have h := findSlideLoop_spec ((tblMaxKey m.occupied - current).toNat + 1) m
    (current + 1) hex
  exact ⟨by omega, h.2.1, fun t ht1 ht2 => h.2.2 t (by omega) ht2⟩

/-! ### Resolver lemmas -/

lemma process_one_slide_auto (numImages : Nat) (st : ProcState) (k s : Int)
    (pos : Position) (g1 g2 g3 g4 : Option Rat)
    (hk : ¬(k < 1 ∨ (numImages : Int) < k))
    (hs : s ≤ (st.numSlides : Int))
    (hnext : st.tracker.get_next_available_position s = some pos) :
    process_one numImages st ⟨some k, SlideVal.num s, none, g1, g2, g3, g4⟩ =
      (⟨st.numSlides, st.tracker.occupy_position s pos⟩, some (s, pos)) := by
  have hns : ¬((st.numSlides : Int) < s) := not_lt.mpr hs
  unfold process_one auto_assign_position
  simp only [if_neg hk, if_pos hs, hnext, if_neg hns]

example :
    process_one 1 ⟨1, ⟨[]⟩⟩ ⟨some 1, SlideVal.num 1, none, none, none, none, none⟩ =
      (⟨1, SlidePositionTracker.mk [(1, [Position.bottomLeft])]⟩,
       some (1, Position.bottomLeft)) := by
  rw [process_one_slide_auto 1 ⟨1, ⟨[]⟩⟩ 1 1 Position.bottomLeft none none none none
    (by decide) (by decide) (by decide)]
  decide

/-- C1: on an empty slide the first three auto-slotted requests resolve,
in order, to bottom-left, bottom-right, top-right; and Scenario A (four
auto/auto requests against a fresh one-slide deck) yields
(1,bottom-left), (1,bottom-right), (1,top-right), (2,bottom-left). -/
theorem auto_preference_order (numImages : Nat) (st : ProcState) (s k1 k2 k3 : Int)
    (hs2 : s ≤ (st.numSlides : Int))
    (hempty : ∀ p, st.tracker.is_position_occupied s p = false)
    (hk1 : 1 ≤ k1 ∧ k1 ≤ (numImages : Int))
    (hk2 : 1 ≤ k2 ∧ k2 ≤ (numImages : Int))
    (hk3 : 1 ≤ k3 ∧ k3 ≤ (numImages : Int)) :
    (process_mappings numImages st
        [⟨some k1, SlideVal.num s, none, none, none, none, none⟩,
         ⟨some k2, SlideVal.num s, none, none, none, none, none⟩,
         ⟨some k3, SlideVal.num s, none, none, none, none, none⟩]).2 =
      [some (s, Position.bottomLeft), some (s, Position.bottomRight),
       some (s, Position.topRight)]
    ∧ (process_mappings 4 ⟨1, ⟨[]⟩⟩
        (List.replicate 4 ⟨some 1, SlideVal.auto, none, none, none, none, none⟩)).2 =
      [some (1, Position.bottomLeft), some (1, Position.bottomRight),
       some (1, Position.topRight), some (2, Position.bottomLeft)] := by
  refine ⟨?_, by decide⟩
  have hK1 : ¬(k1 < 1 ∨ (numImages : Int) < k1) := by omega
  have hK2 : ¬(k2 < 1 ∨ (numImages : Int) < k2) := by omega
  have hK3 : ¬(k3 < 1 ∨ (numImages : Int) < k3) := by omega
  have h1next : st.tracker.get_next_available_position s = some Position.bottomLeft := by
    rw [next_available_eval]
    simp [hempty]
  have h1 := process_one_slide_auto numImages st k1 s Position.bottomLeft
    none none none none hK1 hs2 h1next
  set t1 := st.tracker.occupy_position s Position.bottomLeft with ht1
  have h1occ : ∀ p, t1.is_position_occupied s p = decide (p = Position.bottomLeft) := by
    intro p
    rw [ht1, is_occ_occupy]
    simp [hempty]
  have h2next : t1.get_next_available_position s = some Position.bottomRight := by
    rw [next_available_eval]
    simp [h1occ]
  have h2 := process_one_slide_auto numImages ⟨st.numSlides, t1⟩ k2 s
    Position.bottomRight none none none none hK2 hs2 h2next
  set t2 := t1.occupy_position s Position.bottomRight with ht2
  have h2occ : ∀ p, t2.is_position_occupied s p =
      (decide (p = Position.bottomRight) || decide (p = Position.bottomLeft)) := by
    intro p
    rw [ht2, is_occ_occupy]
    simp [h1occ]
  have h3next : t2.get_next_available_position s = some Position.topRight := by
    rw [next_available_eval]
    simp [h2occ]
  have h3 := process_one_slide_auto numImages ⟨st.numSlides, t2⟩ k3 s
    Position.topRight none none none none hK3 hs2 h3next
  simp only [process_mappings, h1, h2, h3]

theorem auto_preference_order_witness :
    (process_mappings 3 ⟨1, ⟨[]⟩⟩
        [⟨some 1, SlideVal.num 1, none, none, none, none, none⟩,
         ⟨some 2, SlideVal.num 1, none, none, none, none, none⟩,
         ⟨some 3, SlideVal.num 1, none, none, none, none, none⟩]).2 =
      [some (1, Position.bottomLeft), some (1, Position.bottomRight),
       some (1, Position.topRight)] :=
  (auto_preference_order 3 ⟨1, ⟨[]⟩⟩ 1 1 2 3 (by decide) (fun _ => rfl)
    (by decide) (by decide) (by decide)).1

/-- C2 counterexample: a center-slot request with a concrete slide does
mark the occupancy table — (1, center) appears after processing it, so
center placements are not exempt from occupancy marking. -/
theorem center_marks_table_counterexample :
    (process_one 1 ⟨1, ⟨[]⟩⟩
        ⟨some 1, SlideVal.num 1, some Position.center, none, none, none,
         none⟩).1.tracker.is_position_occupied 1 Position.center = true := by
  decide

/-- C2 (amended): a center/custom request with a concrete, existing
slide is collision-checked like an eligible slot and marked occupied on
success; a center/custom request with slide auto is routed through the
auto-assigner, which ignores the requested mode entirely. -/
theorem center_custom_resolution (numImages : Nat) (st : ProcState) (k s : Int)
    (md : Position) (g1 g2 g3 g4 : Option Rat)
    (hmd : md = Position.center ∨ md = Position.custom)
    (hk1 : 1 ≤ k) (hk2 : k ≤ (numImages : Int)) :
    (s ≤ (st.numSlides : Int) →
      st.tracker.is_position_occupied s md = false →
      process_one numImages st ⟨some k, SlideVal.num s, some md, g1, g2, g3, g4⟩ =
        (⟨st.numSlides, st.tracker.occupy_position s md⟩, some (s, md)))
    ∧ process_one numImages st ⟨some k, SlideVal.auto, some md, g1, g2, g3, g4⟩ =
        process_one numImages st ⟨some k, SlideVal.auto, none, g1, g2, g3, g4⟩ := by
  constructor
  · intro hs hocc
    have hK : ¬(k < 1 ∨ (numImages : Int) < k) := by omega
    have hns : ¬((st.numSlides : Int) < s) := by omega
    unfold process_one
    simp only [if_neg hK, hocc, Bool.false_eq_true, if_false, if_neg hns]
  · rfl

theorem center_custom_resolution_witness :
    process_one 1 ⟨1, ⟨[]⟩⟩
        ⟨some 1, SlideVal.num 1, some Position.center, none, none, none, none⟩ =
      (⟨1, SlidePositionTracker.mk [(1, [Position.center])]⟩,
       some (1, Position.center)) := by
  have h := (center_custom_resolution 1 ⟨1, ⟨[]⟩⟩ 1 1 Position.center
    none none none none (Or.inl rfl) (by decide) (by decide)).1 (by decide) (by decide)
  rw [h]
  decide

/-- C9: with slide auto, a concrete eligible slot in the request is
ignored — resolution proceeds exactly as for an auto/auto request; in
particular, on a fresh deck an (auto, top-right) request lands on
(1, bottom-left) even though top-right is free. -/
theorem auto_slide_ignores_requested_slot (numImages : Nat) (st : ProcState)
    (k : Int) (pos : Position) (g1 g2 g3 g4 : Option Rat)
    (hpos : pos ∈ available_positions) :
    (process_one numImages st ⟨some k, SlideVal.auto, some pos, g1, g2, g3, g4⟩ =
      process_one numImages st ⟨some k, SlideVal.auto, none, g1, g2, g3, g4⟩)
    ∧ (process_one 1 ⟨1, ⟨[]⟩⟩
        ⟨some 1, SlideVal.auto, some Position.topRight, none, none, none, none⟩).2 =
      some (1, Position.bottomLeft)
    ∧ (⟨[]⟩ : SlidePositionTracker).is_position_occupied 1 Position.topRight = false := by
  refine ⟨rfl, by decide, rfl⟩

theorem auto_slide_ignores_requested_slot_witness :
    process_one 1 ⟨1, ⟨[]⟩⟩
        ⟨some 1, SlideVal.auto, some Position.topRight, none, none, none, none⟩ =
      process_one 1 ⟨1, ⟨[]⟩⟩ ⟨some 1, SlideVal.auto, none, none, none, none, none⟩ :=
  (auto_slide_ignores_requested_slot 1 ⟨1, ⟨[]⟩⟩ 1 Position.topRight
    none none none none (by decide)).1

/-- C4: a request with a concrete slide and a concrete eligible slot is
assigned as requested when the pair is free; on collision it takes
nextAvailable of the same slide when one exists; and only when that
slide is full does it fall back to the full search-then-create rule,
resolving exactly as an auto/auto request would. -/
theorem concrete_slot_resolution (numImages : Nat) (st : ProcState) (k s : Int)
    (pos : Position) (hk1 : 1 ≤ k) (hk2 : k ≤ (numImages : Int))
    (hpos : pos ∈ available_positions) (hs2 : s ≤ (st.numSlides : Int)) :
    (st.tracker.is_position_occupied s pos = false →
      process_one numImages st ⟨some k, SlideVal.num s, some pos, none, none, none, none⟩ =
        (⟨st.numSlides, st.tracker.occupy_position s pos⟩, some (s, pos)))
    ∧ (∀ alt, st.tracker.is_position_occupied s pos = true →
        st.tracker.get_next_available_position s = some alt →
        process_one numImages st ⟨some k, SlideVal.num s, some pos, none, none, none, none⟩ =
          (⟨st.numSlides, st.tracker.occupy_position s alt⟩, some (s, alt)))
    ∧ (st.tracker.is_position_occupied s pos = true →
        st.tracker.get_next_available_position s = none →
        process_one numImages st ⟨some k, SlideVal.num s, some pos, none, none, none, none⟩ =
          process_one numImages st ⟨some k, SlideVal.auto, none, none, none, none, none⟩) := by
  have hK : ¬(k < 1 ∨ (numImages : Int) < k) := by omega
  have hns : ¬((st.numSlides : Int) < s) := by omega
  refine ⟨?_, ?_, ?_⟩
  · intro hocc
    unfold process_one
    simp only [if_neg hK, hocc, Bool.false_eq_true, if_false, if_neg hns]
  · intro alt hocc hnext
    unfold process_one
    simp only [if_neg hK, hocc, if_true, hnext, if_neg hns]
  · intro hocc hnext
    unfold process_one auto_assign_position
    simp only [if_neg hK, hocc, if_true, hnext]

theorem concrete_slot_resolution_witness :
    process_one 5 ⟨1, SlidePositionTracker.mk [(1, [Position.bottomLeft])]⟩
        ⟨some 5, SlideVal.num 1, some Position.bottomLeft, none, none, none, none⟩ =
      (⟨1, SlidePositionTracker.mk [(1, [Position.bottomRight, Position.bottomLeft])]⟩,
       some (1, Position.bottomRight)) := by
  have h := (concrete_slot_resolution 5 ⟨1, ⟨[(1, [Position.bottomLeft])]⟩⟩ 5 1
    Position.bottomLeft (by decide) (by decide) (by decide) (by decide)).2.1
    Position.bottomRight (by decide) (by decide)
  rw [h]
  decide

/-- C3 counterexample: scanning a pre-existing image in the top-left
region marks `top-left` in the table — the stored slot set is not a
subset of the three eligible slots. -/
theorem scan_marks_top_left_counterexample :
    Position.topLeft ∈
      (scan_existing_images ⟨[]⟩
        [[((0 : Rat), (0 : Rat))]]).get_occupied_positions 1
    ∧ Position.topLeft ∉ available_positions := by
  have hdet : determine_position_from_coordinates 10 (15/2) 0 0 = Position.topLeft := by
    norm_num [determine_position_from_coordinates]
  have hscan : scan_existing_images ⟨[]⟩ [[((0 : Rat), (0 : Rat))]] =
      SlidePositionTracker.mk
        [(1, [determine_position_from_coordinates 10 (15/2) 0 0])] := rfl
  rw [hscan, hdet]
  exact ⟨by decide, by decide⟩

/-- Well-formedness actually preserved by the imgins tracker: every
stored slot set is non-empty and duplicate-free. -/
def TrackerWF (t : SlidePositionTracker) : Prop :=
  ∀ s l, lookupSlide t.occupied s = some l → l ≠ [] ∧ l.Nodup

lemma insertPos_ne_nil (p : Position) (l : List Position) : insertPos p l ≠ [] := by
  unfold insertPos
  by_cases hp : p ∈ l
  · rw [if_pos hp]
    intro h
    subst h
    simp at hp
  · rw [if_neg hp]
    simp

lemma insertPos_nodup {p : Position} {l : List Position} (h : l.Nodup) :
    (insertPos p l).Nodup := by
  unfold insertPos
  by_cases hp : p ∈ l
  · rw [if_pos hp]; exact h
  · rw [if_neg hp]; exact List.nodup_cons.mpr ⟨hp, h⟩

/-- C3 (amended): a slide is keyed in the imgins tracker's table only
with a non-empty, duplicate-free slot set, and an absent key means zero
occupancy rather than an error; the eligible-subset part of the claim
fails (scan and mode placements store non-eligible slots), and the
doc_json manager additionally inserts empty entries on query. -/
theorem tracker_table_invariant :
    TrackerWF ⟨[]⟩
    ∧ (∀ (t : SlidePositionTracker) (s : Int) (p : Position),
        TrackerWF t → TrackerWF (t.occupy_position s p))
    ∧ (∀ (t : SlidePositionTracker) (s : Int) (p : Position),
        lookupSlide t.occupied s = none → t.is_position_occupied s p = false) := by
  refine ⟨?_, ?_, ?_⟩
  · intro s l h
    simp [lookupSlide] at h
  · intro t s p hwf s' l hl
    rw [occupy_lookup] at hl
    by_cases hs' : s' = s
    · rw [if_pos hs'] at hl
      have hins := Option.some.inj hl
      cases hlk : lookupSlide t.occupied s with
      | none =>
          rw [hlk] at hins
          refine ⟨hins ▸ insertPos_ne_nil p [], hins ▸ insertPos_nodup List.nodup_nil⟩
      | some l0 =>
          rw [hlk] at hins
          have h0 := hwf s l0 hlk
          exact ⟨hins ▸ insertPos_ne_nil p l0, hins ▸ insertPos_nodup h0.2⟩
    · rw [if_neg hs'] at hl
      exact hwf s' l hl
  · intro t s p h
    unfold SlidePositionTracker.is_position_occupied
    rw [h]

theorem tracker_table_invariant_witness :
    (⟨[]⟩ : SlidePositionTracker).is_position_occupied 3 Position.topRight = false ∧
    TrackerWF ((⟨[]⟩ : SlidePositionTracker).occupy_position 1 Position.bottomLeft) :=
  ⟨tracker_table_invariant.2.2 ⟨[]⟩ 3 Position.topRight rfl,
   tracker_table_invariant.2.1 ⟨[]⟩ 1 Position.bottomLeft tracker_table_invariant.1⟩

/-- C5 counterexample: `PositionManager.get_next_available_position`
mutates the table — querying an absent slide inserts an empty entry, so
the table is not left identical. -/
theorem manager_query_mutates_counterexample :
    ((PositionManager.mk []).get_next_available_position 1).2 ≠
      PositionManager.mk [] := by
  decide

/-- C5 (amended): both implementations return the first slot of
[bottom-left, bottom-right, top-right] not occupied on the slide (none
when all three are), deterministically; the imgins tracker's query is a
pure function, while the doc_json manager's query may insert an empty
entry for an absent slide — its result, a repeated call's result, and
the occupancy semantics of its table are nonetheless unchanged. -/
theorem next_available_position_spec :
    (∀ (t : SlidePositionTracker) (s : Int),
      (t.get_next_available_position s = some Position.bottomLeft ↔
        t.is_position_occupied s Position.bottomLeft = false)
      ∧ (t.get_next_available_position s = some Position.bottomRight ↔
          t.is_position_occupied s Position.bottomLeft = true ∧
          t.is_position_occupied s Position.bottomRight = false)
      ∧ (t.get_next_available_position s = some Position.topRight ↔
          t.is_position_occupied s Position.bottomLeft = true ∧
          t.is_position_occupied s Position.bottomRight = true ∧
          t.is_position_occupied s Position.topRight = false)
      ∧ (t.get_next_available_position s = none ↔
          ∀ p ∈ available_positions, t.is_position_occupied s p = true))
    ∧ (∀ (m : PositionManager) (s : Int),
        (m.get_next_available_position s).1 =
          (SlidePositionTracker.mk m.occupied).get_next_available_position s
        ∧ ((m.get_next_available_position s).2.get_next_available_position s).1 =
            (m.get_next_available_position s).1
        ∧ ∀ (s' : Int) (p : Position),
            occB (m.get_next_available_position s).2.occupied s' p =
              occB m.occupied s' p) := by
  constructor
  · intro t s
    rw [next_available_eval]
    cases hb1 : t.is_position_occupied s Position.bottomLeft <;>
      cases hb2 : t.is_position_occupied s Position.bottomRight <;>
        cases hb3 : t.is_position_occupied s Position.topRight <;>
          refine ⟨?_, ?_, ?_, ?_⟩ <;>
            simp [available_positions, hb1, hb2, hb3] <;>
              first
                | (intro p hp; fin_cases hp <;> simp [hb1, hb2, hb3])
                | (intro hcon; exact absurd (hcon Position.topRight (by simp)) (by
                    simp [hb3]))
                | (intro hcon; exact absurd (hcon Position.bottomRight (by simp)) (by
                    simp [hb2]))
                | (intro hcon; exact absurd (hcon Position.bottomLeft (by simp)) (by
                    simp [hb1]))
  · intro m s
    refine ⟨manager_next_fst m s, ?_, ?_⟩
    · rw [show (m.get_next_available_position s).2 = m.ensure s from rfl,
        manager_next_fst, manager_next_fst]
      unfold SlidePositionTracker.get_next_available_position
      congr 1
      funext p
      rw [show (SlidePositionTracker.mk (m.ensure s).occupied).is_position_occupied s p =
          occB (m.ensure s).occupied s p from rfl,
        show (SlidePositionTracker.mk m.occupied).is_position_occupied s p =
          occB m.occupied s p from rfl, occB_ensure]
    · intro s' p
      rw [show (m.get_next_available_position s).2 = m.ensure s from rfl, occB_ensure]

theorem next_available_position_spec_witness :
    (SlidePositionTracker.mk
        [(1, [Position.bottomLeft])]).get_next_available_position 1 =
      some Position.bottomRight :=
  ((next_available_position_spec.1 ⟨[(1, [Position.bottomLeft])]⟩ 1).2.1).mpr
    ⟨by decide, by decide⟩

/-- C6: the scanner's classifier splits at 3.0 / 2.5 inches — not at the
canvas midpoints 5.0 / 3.75 — so the shape at (4, 3), inside the
midpoint-rule top-left quadrant, is classified bottom-right. -/
theorem determine_position_thresholds :
    determine_position_from_coordinates 10 (15/2) 4 3 = Position.bottomRight
    ∧ determine_position_from_coordinates 10 (15/2) 4 3 ≠ Position.topLeft
    ∧ (4 : Rat) < 5 ∧ (3 : Rat) < 15/2 / 2 := by
  have h : determine_position_from_coordinates 10 (15/2) 4 3 = Position.bottomRight := by
    norm_num [determine_position_from_coordinates]
  exact ⟨h, by rw [h]; decide, by norm_num, by norm_num⟩

/-- C7 counterexample: a line with a missing (empty) image number is not
skipped — it yields a placement request with no image number. -/
theorem txt_missing_image_number_counterexample :
    parse_txt_mapping [(":1:bottom-left").data] =
      [⟨none, SlideVal.num 1, some Position.bottomLeft, none, none, none, none⟩] := by
  decide

/-- C7 (amended): a line whose image-number field is non-empty but
unparsable is skipped, leaving every other line's placements unchanged,
and blank or `#` lines produce nothing; a line with an *empty* image
field instead produces a placement whose image number is absent. -/
theorem txt_record_errors_isolated (pre post : List Str) (line : Str) :
    ((trimChars line ≠ [] ∧ (trimChars line).head? ≠ some '#' ∧
      ∃ p0 rest,
        (if ':' ∈ trimChars line then splitOnChar ':' (trimChars line)
         else splitWS (trimChars line)) = p0 :: rest ∧
        trimChars p0 ≠ [] ∧ parseIntStr p0 = none) →
      parse_txt_mapping (pre ++ line :: post) =
        parse_txt_mapping pre ++ parse_txt_mapping post)
    ∧ ((trimChars line = [] ∨ (trimChars line).head? = some '#') →
      parse_txt_mapping (pre ++ line :: post) =
        parse_txt_mapping pre ++ parse_txt_mapping post) := by
  have hskip : ∀ hnone : parseTxtLine line = none,
      parse_txt_mapping (pre ++ line :: post) =
        parse_txt_mapping pre ++ parse_txt_mapping post := by
    intro hnone
    unfold parse_txt_mapping
    rw [List.filterMap_append, List.filterMap_cons, hnone]
  constructor
  · rintro ⟨h1, h2, p0, rest, hparts, h3, h4⟩
    apply hskip
    unfold parseTxtLine
    rw [if_neg h1, if_neg h2, hparts]
    have himg : txtImageField p0 = none := by
      unfold txtImageField
      rw [if_neg h3, h4]
      rfl
    unfold parseTxtFields
    cases hS : txtSlideField (p0 :: rest) with
    | none => rfl
    | some slide =>
        cases hP : txtPosField (p0 :: rest) with
        | none => rfl
        | some pos => simp [himg]
  · intro h
    apply hskip
    unfold parseTxtLine
    rcases h with h | h
    · rw [if_pos h]
    · by_cases h1 : trimChars line = []
      · rw [if_pos h1]
      · rw [if_neg h1, if_pos h]

theorem txt_record_errors_isolated_witness :
    parse_txt_mapping [("abc:1:bottom-left").data, ("2:1:top-right").data] =
      [⟨some 2, SlideVal.num 1, some Position.topRight, none, none, none, none⟩] := by
  have h := (txt_record_errors_isolated [] [("2:1:top-right").data]
      ("abc:1:bottom-left").data).1
    ⟨by decide, by decide,
     ("abc").data, [("1").data, ("bottom-left").data], by decide, by decide, by decide⟩
  rw [show (([] : List Str) ++ ("abc:1:bottom-left").data :: [("2:1:top-right").data]) =
    [("abc:1:bottom-left").data, ("2:1:top-right").data] from rfl] at h
  rw [h]
  decide

/-- C8: the three wire forms, fed the encodings of the same abstract
record list, produce the same normalized placement list (record by
record and field by field). -/
theorem ingestion_format_independence (rs : List Record) :
    parse_json_mapping (rs.map Record.toJsonItem) = some (rs.map Record.placement)
    ∧ parse_csv_mapping (rs.map Record.toCsvRow) = some (rs.map Record.placement)
    ∧ parse_txt_mapping (rs.map Record.toTxtLine) = rs.map Record.placement :=
  ⟨mapMOpt_map parseJsonItem_toJsonItem rs,
   mapMOpt_map parseCsvRow_toCsvRow rs,
   filterMap_map parseTxtLine_toTxtLine rs⟩

/-- C10: the JSON-mapping generator's overflow allocator hands an
overflowing image the smallest slide strictly greater than the current
one that is not full, never a slide at or below it; the closed run shows
image 4 spilling from full slide 2 to slide 3 while the resolver's
search rule on the same occupancy would pick slide 1. -/
theorem generator_forward_spillover :
    (∀ (m : PositionManager) (current : Int),
      current < (find_or_create_slide m current).1 ∧
      fullB m.occupied (find_or_create_slide m current).1 = false ∧
      ∀ t : Int, current < t → t < (find_or_create_slide m current).1 →
        fullB m.occupied t = true)
    ∧ (generate_json_mapping ⟨[]⟩ [⟨2, [1, 2, 3]⟩, ⟨2, [4]⟩]).1.map
        (fun e => (e.image_number, e.slide_number)) = [(1, 2), (2, 2), (3, 2), (4, 3)]
    ∧ scanSlides 3
        ⟨[(2, [Position.bottomLeft, Position.bottomRight, Position.topRight])]⟩ =
      some (1, Position.bottomLeft) :=
  ⟨find_or_create_slide_spec, by decide, by decide⟩

theorem generator_forward_spillover_witness :
    2 < (find_or_create_slide
        ⟨[(2, [Position.bottomLeft, Position.bottomRight, Position.topRight])]⟩ 2).1 ∧
    fullB [(2, [Position.bottomLeft, Position.bottomRight, Position.topRight])]
      (find_or_create_slide
        ⟨[(2, [Position.bottomLeft, Position.bottomRight, Position.topRight])]⟩ 2).1 =
      false :=
  ⟨(generator_forward_spillover.1
      ⟨[(2, [Position.bottomLeft, Position.bottomRight, Position.topRight])]⟩ 2).1,
   (generator_forward_spillover.1
      ⟨[(2, [Position.bottomLeft, Position.bottomRight, Position.topRight])]⟩ 2).2.1⟩
